import Mathlib

/-!
Shallow embedding of `src/package_manager/package_handler.py` (class
`PackageEngine`) and proofs about it.

Modelling conventions:
* Python strings are `String` / `List Char`; `s.split(c)[0]` for a one-character
  separator is "take until the first occurrence of `c`"; `s.strip()` removes
  leading and trailing Python whitespace.
* The manifest file `packages.json` holds `{"packages": {name: record}}`; the
  `packages` dict is modelled as an association list with unique keys kept in
  insertion order (Python dict semantics).
* Subprocess and network results are parameters: an exit code plus captured
  stderr for `pip` invocations, an `Option` for each fallible index lookup.
-/

set_option autoImplicit false

namespace PackageEngine

/-! ### Python string primitives -/

/-- `s.split(c)[0]` for a single-character separator: everything before the
first occurrence of `c` (the whole list when `c` does not occur). -/
def takeUntil (c : Char) : List Char → List Char
  | [] => []
  | a :: t => if a = c then [] else a :: takeUntil c t

/-- The characters Python `str.strip()` removes. -/
def pyIsSpace (c : Char) : Bool :=
  c = ' ' || c = '\t' || c = '\n' || c = '\r' || c = '\x0b' || c = '\x0c'

/-- Remove the maximal run of trailing whitespace (the right half of
`str.strip()`). -/
def rstripChars : List Char → List Char
  | [] => []
  | a :: t =>
    let r := rstripChars t
    if r = [] ∧ pyIsSpace a then [] else a :: r

/-- Python `str.strip()` on a character list: drop leading whitespace, then
trailing whitespace. -/
def pyStripL (l : List Char) : List Char :=
  rstripChars (l.dropWhile pyIsSpace)

/-- `_get_base_name` (package_handler.py:49-52) on a character list:
`package_spec.split(";")[0].split("[")[0].split("(")[0].strip()` followed by
`name.split("<")[0].split(">")[0].split("=")[0].strip()`. -/
def getBaseNameL (l : List Char) : List Char :=
  let name := pyStripL (takeUntil '(' (takeUntil '[' (takeUntil ';' l)))
  pyStripL (takeUntil '=' (takeUntil '>' (takeUntil '<' name)))

/-- `_get_base_name` on strings. -/
def getBaseName (s : String) : String :=
  String.mk (getBaseNameL s.data)

/-- Does `l` start with `pat`? -/
def startsWith : List Char → List Char → Bool
  | _, [] => true
  | [], _ :: _ => false
  | a :: t, b :: s => a = b && startsWith t s

/-- Does `pat` occur as a contiguous run inside `l`? -/
def containsSub (pat : List Char) : List Char → Bool
  | [] => pat.isEmpty
  | a :: t => startsWith (a :: t) pat || containsSub pat t

/-- Python's substring test `pat in s`. -/
def strContains (s pat : String) : Bool :=
  containsSub pat.data s.data

/-! ### The manifest -/

/-- One value of the `packages` dict.  `install_package` writes
`{version, install_date, security_hash}`; `update_package` writes
`{version, update_date, security_hash}`; absent keys are `none`. -/
structure PackageRecord where
  version : String
  install_date : Option String
  update_date : Option String
  security_hash : Option String
  deriving DecidableEq, Repr

/-- The `packages` dict of `packages.json`: keys unique, insertion order. -/
abbrev Manifest := List (String × PackageRecord)

/-- Python `packages[n]` as an option (`n in packages` ↔ `isSome`). -/
def mLookup : Manifest → String → Option PackageRecord
  | [], _ => none
  | (k, v) :: t, n => if k = n then some v else mLookup t n

/-- Python `n in packages`. -/
def mHas (m : Manifest) (n : String) : Bool :=
  (mLookup m n).isSome

/-- Python `packages[n] = r`: replace in place when the key exists, else
append. -/
def mInsert : Manifest → String → PackageRecord → Manifest
  | [], n, r => [(n, r)]
  | (k, v) :: t, n, r => if k = n then (n, r) :: t else (k, v) :: mInsert t n r

/-- Python `del packages[n]` (keys are unique in a dict, so removing every
occurrence agrees with removing the one occurrence). -/
def mErase (m : Manifest) (n : String) : Manifest :=
  m.filter (fun kv => kv.1 ≠ n)

/-! ### Basic manifest lemmas -/

theorem mLookup_mInsert_self (m : Manifest) (n : String) (r : PackageRecord) :
    mLookup (mInsert m n r) n = some r := by
  induction m with
  | nil => simp [mInsert, mLookup]
  | cons kv t ih =>
    obtain ⟨k, v⟩ := kv
    by_cases h : k = n <;> simp [mInsert, mLookup, h, ih]

theorem mHas_mInsert_of_mHas (m : Manifest) (k n : String) (r : PackageRecord)
    (h : mHas m n = true) : mHas (mInsert m k r) n = true := by
  induction m with
  | nil => simp [mHas, mLookup] at h
  | cons kv t ih =>
    obtain ⟨k', v⟩ := kv
    by_cases hk : k' = k
    · subst hk
      by_cases hn : k' = n
      · simp [mHas, mInsert, mLookup, hn]
      · simp only [mHas, mLookup, if_neg hn] at h
        simp [mHas, mInsert, mLookup, if_neg hn, h]
    · by_cases hn : k' = n
      · subst hn
        simp [mHas, mInsert, mLookup, if_neg hk]
      · simp only [mHas, mLookup, if_neg hn] at h
        simp only [mHas, mInsert, mLookup, if_neg hk, if_neg hn]
        exact ih h

theorem mHas_mInsert_self (m : Manifest) (n : String) (r : PackageRecord) :
    mHas (mInsert m n r) n = true := by
  simp [mHas, mLookup_mInsert_self]

theorem mLookup_mErase_self (m : Manifest) (n : String) :
    mLookup (mErase m n) n = none := by
  induction m with
  | nil => simp [mErase, mLookup]
  | cons kv t ih =>
    obtain ⟨k, v⟩ := kv
    by_cases h : k = n
    · simpa [mErase, List.filter, h] using ih
    · simpa [mErase, List.filter, h, mLookup] using ih

/-! ### Lemmas about the string primitives -/

theorem mem_takeUntil {c x : Char} {l : List Char} (h : x ∈ takeUntil c l) :
    x ∈ l ∧ x ≠ c := by
  induction l with
  | nil => simp [takeUntil] at h
  | cons a t ih =>
    by_cases ha : a = c
    · simp [takeUntil, ha] at h
    · simp only [takeUntil, if_neg ha, List.mem_cons] at h
      rcases h with h | h
      · subst h; exact ⟨List.mem_cons_self _ _, ha⟩
      · exact ⟨List.mem_cons_of_mem _ (ih h).1, (ih h).2⟩

theorem takeUntil_eq_self {c : Char} {l : List Char}
    (h : ∀ x ∈ l, x ≠ c) : takeUntil c l = l := by
  induction l with
  | nil => rfl
  | cons a t ih =>
    have ha : a ≠ c := h a (List.mem_cons_self _ _)
    simp only [takeUntil, if_neg ha]
    rw [ih fun x hx => h x (List.mem_cons_of_mem _ hx)]

theorem rstripChars_cons (b : Char) (t : List Char) :
    rstripChars (b :: t) =
      if rstripChars t = [] ∧ pyIsSpace b then [] else b :: rstripChars t := rfl

theorem mem_of_mem_dropWhile {p : Char → Bool} {x : Char} {l : List Char}
    (h : x ∈ l.dropWhile p) : x ∈ l := by
  induction l with
  | nil => simp [List.dropWhile] at h
  | cons a t ih =>
    by_cases hp : p a = true
    · rw [List.dropWhile_cons_of_pos hp] at h
      exact List.mem_cons_of_mem _ (ih h)
    · rwa [List.dropWhile_cons_of_neg hp] at h

theorem mem_of_mem_rstripChars {x : Char} {l : List Char}
    (h : x ∈ rstripChars l) : x ∈ l := by
  induction l with
  | nil => simp [rstripChars] at h
  | cons a t ih =>
    rw [rstripChars_cons] at h
    by_cases hc : rstripChars t = [] ∧ pyIsSpace a
    · simp [hc] at h
    · rw [if_neg hc, List.mem_cons] at h
      rcases h with h | h
      · subst h; exact List.mem_cons_self _ _
      · exact List.mem_cons_of_mem _ (ih h)

theorem mem_of_mem_pyStripL {x : Char} {l : List Char}
    (h : x ∈ pyStripL l) : x ∈ l :=
  mem_of_mem_dropWhile (mem_of_mem_rstripChars h)

/-- The head of `dropWhile p` fails `p`. -/
theorem dropWhile_head_false {p : Char → Bool} {l : List Char} {a : Char}
    {t : List Char} (h : l.dropWhile p = a :: t) : p a = false := by
  induction l with
  | nil => simp [List.dropWhile] at h
  | cons b s ih =>
    by_cases hp : p b = true
    · rw [List.dropWhile_cons_of_pos hp] at h
      exact ih h
    · rw [List.dropWhile_cons_of_neg hp] at h
      have hb : b = a := (List.cons.injEq _ _ _ _ ▸ h).1
      subst hb
      simpa using hp

theorem dropWhile_eq_self_of_head {p : Char → Bool} {l : List Char}
    (h : ∀ a t, l = a :: t → p a = false) : l.dropWhile p = l := by
  cases l with
  | nil => rfl
  | cons a t => simp [List.dropWhile, h a t rfl]

/-- The last element of `rstripChars l` is not whitespace. -/
theorem rstripChars_getLast_false {l : List Char} {a : Char}
    (h : (rstripChars l).getLast? = some a) : pyIsSpace a = false := by
  induction l with
  | nil => simp [rstripChars] at h
  | cons b t ih =>
    rw [rstripChars_cons] at h
    by_cases hc : rstripChars t = [] ∧ pyIsSpace b
    · simp [hc] at h
    · rw [if_neg hc] at h
      cases hr : rstripChars t with
      | nil =>
        rw [hr] at h
        simp only [List.getLast?_singleton, Option.some.injEq] at h
        subst h
        rcases Decidable.not_and_iff_or_not.mp hc with hc' | hc'
        · exact absurd hr hc'
        · simpa using hc'
      | cons c s =>
        rw [hr, List.getLast?_cons_cons] at h
        exact ih (hr ▸ h)

/-- `rstripChars` leaves a list alone when its last element is not
whitespace. -/
theorem rstripChars_eq_self_of_getLast {l : List Char}
    (h : ∀ a, l.getLast? = some a → pyIsSpace a = false) : rstripChars l = l := by
  induction l with
  | nil => rfl
  | cons b t ih =>
    cases t with
    | nil =>
      have hb : pyIsSpace b = false := h b (by simp)
      simp [rstripChars, hb]
    | cons c s =>
      have ht : rstripChars (c :: s) = c :: s := by
        refine ih fun a ha => h a ?_
        rwa [List.getLast?_cons_cons]
      rw [rstripChars_cons, ht]
      simp

/-- `rstripChars` keeps the head of a nonempty result. -/
theorem rstripChars_cons_shape (b : Char) (t : List Char) :
    rstripChars (b :: t) = [] ∨ ∃ r, rstripChars (b :: t) = b :: r := by
  rw [rstripChars_cons]
  by_cases hc : rstripChars t = [] ∧ pyIsSpace b
  · exact Or.inl (by rw [if_pos hc])
  · exact Or.inr ⟨rstripChars t, by rw [if_neg hc]⟩

/-- The head of `pyStripL l` is not whitespace. -/
theorem pyStripL_head_false {l : List Char} {a : Char} {r : List Char}
    (h : pyStripL l = a :: r) : pyIsSpace a = false := by
  unfold pyStripL at h
  cases hd : l.dropWhile pyIsSpace with
  | nil => rw [hd] at h; simp [rstripChars] at h
  | cons b t =>
    rw [hd] at h
    rcases rstripChars_cons_shape b t with hs | ⟨r', hr'⟩
    · rw [hs] at h; exact absurd h (by simp)
    · rw [hr'] at h
      have hb : b = a := (List.cons.injEq _ _ _ _ ▸ h).1
      exact hb ▸ dropWhile_head_false hd

/-- The last element of `pyStripL l` is not whitespace. -/
theorem pyStripL_getLast_false {l : List Char} {a : Char}
    (h : (pyStripL l).getLast? = some a) : pyIsSpace a = false :=
  rstripChars_getLast_false h

/-- `pyStripL` is the identity on lists already stripped on both sides. -/
theorem pyStripL_eq_self {l : List Char}
    (hh : ∀ a t, l = a :: t → pyIsSpace a = false)
    (hl : ∀ a, l.getLast? = some a → pyIsSpace a = false) : pyStripL l = l := by
  unfold pyStripL
  rw [dropWhile_eq_self_of_head hh]
  exact rstripChars_eq_self_of_getLast hl

/-! ### Idempotence of `_get_base_name` -/

theorem getBaseNameL_eq (l : List Char) :
    getBaseNameL l =
      pyStripL (takeUntil '=' (takeUntil '>' (takeUntil '<'
        (pyStripL (takeUntil '(' (takeUntil '[' (takeUntil ';' l))))))) := rfl

/-- No separator character survives `_get_base_name`. -/
theorem getBaseNameL_sepFree {x : Char} {l : List Char}
    (h : x ∈ getBaseNameL l) :
    x ≠ ';' ∧ x ≠ '[' ∧ x ≠ '(' ∧ x ≠ '<' ∧ x ≠ '>' ∧ x ≠ '=' := by
  rw [getBaseNameL_eq] at h
  have h1 := mem_of_mem_pyStripL h
  obtain ⟨h2, hne⟩ := mem_takeUntil h1
  obtain ⟨h3, hgt⟩ := mem_takeUntil h2
  obtain ⟨h4, hlt⟩ := mem_takeUntil h3
  have h5 := mem_of_mem_pyStripL h4
  obtain ⟨h6, hpar⟩ := mem_takeUntil h5
  obtain ⟨h7, hbr⟩ := mem_takeUntil h6
  obtain ⟨_, hsemi⟩ := mem_takeUntil h7
  exact ⟨hsemi, hbr, hpar, hlt, hgt, hne⟩

/-- The result of `_get_base_name` starts with a non-whitespace character. -/
theorem getBaseNameL_head_false {l : List Char} {a : Char} {t : List Char}
    (h : getBaseNameL l = a :: t) : pyIsSpace a = false := by
  rw [getBaseNameL_eq] at h
  exact pyStripL_head_false h

/-- The result of `_get_base_name` ends with a non-whitespace character. -/
theorem getBaseNameL_getLast_false {l : List Char} {a : Char}
    (h : (getBaseNameL l).getLast? = some a) : pyIsSpace a = false := by
  rw [getBaseNameL_eq] at h
  exact pyStripL_getLast_false h

/-- `_get_base_name` fixes any separator-free, both-sides-stripped list. -/
theorem getBaseNameL_fixed {l : List Char}
    (hsep : ∀ x ∈ l, x ≠ ';' ∧ x ≠ '[' ∧ x ≠ '(' ∧ x ≠ '<' ∧ x ≠ '>' ∧ x ≠ '=')
    (hh : ∀ a t, l = a :: t → pyIsSpace a = false)
    (hl : ∀ a, l.getLast? = some a → pyIsSpace a = false) :
    getBaseNameL l = l := by
  rw [getBaseNameL_eq]
  rw [takeUntil_eq_self fun x hx => (hsep x hx).1]
  rw [takeUntil_eq_self fun x hx => (hsep x hx).2.1]
  rw [takeUntil_eq_self fun x hx => (hsep x hx).2.2.1]
  rw [pyStripL_eq_self hh hl]
  rw [takeUntil_eq_self fun x hx => (hsep x hx).2.2.2.1]
  rw [takeUntil_eq_self fun x hx => (hsep x hx).2.2.2.2.1]
  rw [takeUntil_eq_self fun x hx => (hsep x hx).2.2.2.2.2]
  exact pyStripL_eq_self hh hl

theorem getBaseNameL_idem (l : List Char) :
    getBaseNameL (getBaseNameL l) = getBaseNameL l :=
  getBaseNameL_fixed
    (fun _ hx => getBaseNameL_sepFree hx)
    (fun _ _ h => getBaseNameL_head_false h)
    (fun _ h => getBaseNameL_getLast_false h)

/-- C6: base-name extraction is idempotent: for every specifier string `s`,
`_get_base_name(_get_base_name(s)) == _get_base_name(s)`
(package_handler.py:49-52). -/
theorem C6_getBaseName_idempotent (s : String) :
    getBaseName (getBaseName s) = getBaseName s :=
  congrArg String.mk (getBaseNameL_idem s.data)

/-! ### `install_multiple`: accumulation of the install set

`install_multiple` (package_handler.py:195-206) builds
`all_packages = set()`, and for each requested spec does
`all_packages.add(spec)` followed by
`all_packages.update(self._get_dependencies(name))`.  A Python set is
modelled as a duplicate-free list in insertion order; `deps` abstracts
`_get_dependencies` of the spec's base name. -/

/-- `set.add`: insert unless already present. -/
def addUnique (acc : List String) (x : String) : List String :=
  if x ∈ acc then acc else acc ++ [x]

/-- One iteration of the accumulation loop body (lines 197-201). -/
def accumStep (deps : String → List String) (acc : List String) (spec : String) :
    List String :=
  (deps (getBaseName spec)).foldl addUnique (addUnique acc spec)

/-- The accumulated install set: one installer dispatch per element
(line 206). -/
def accumulateSet (deps : String → List String) (specs : List String) :
    List String :=
  specs.foldl (accumStep deps) []

theorem addUnique_nodup {acc : List String} {x : String} (h : acc.Nodup) :
    (addUnique acc x).Nodup := by
  unfold addUnique
  by_cases hx : x ∈ acc
  · rwa [if_pos hx]
  · rw [if_neg hx]
    simpa using List.Nodup.append h (List.nodup_singleton x) (by simpa using hx)

theorem mem_addUnique_self (acc : List String) (x : String) :
    x ∈ addUnique acc x := by
  unfold addUnique
  by_cases hx : x ∈ acc
  · rwa [if_pos hx]
  · rw [if_neg hx]; simp

theorem mem_addUnique_of_mem {acc : List String} {y : String} (x : String)
    (h : y ∈ acc) : y ∈ addUnique acc x := by
  unfold addUnique
  by_cases hx : x ∈ acc
  · rwa [if_pos hx]
  · rw [if_neg hx]; exact List.mem_append_left _ h

theorem foldl_addUnique_nodup {acc : List String} (l : List String)
    (h : acc.Nodup) : (l.foldl addUnique acc).Nodup := by
  induction l generalizing acc with
  | nil => exact h
  | cons a t ih => exact ih (addUnique_nodup h)

theorem mem_foldl_addUnique_of_mem {acc : List String} {y : String}
    (l : List String) (h : y ∈ acc) : y ∈ l.foldl addUnique acc := by
  induction l generalizing acc with
  | nil => exact h
  | cons a t ih => exact ih (mem_addUnique_of_mem a h)

theorem accumStep_nodup (deps : String → List String) {acc : List String}
    (spec : String) (h : acc.Nodup) : (accumStep deps acc spec).Nodup :=
  foldl_addUnique_nodup _ (addUnique_nodup h)

theorem mem_accumStep_of_mem (deps : String → List String) {acc : List String}
    {y : String} (spec : String) (h : y ∈ acc) : y ∈ accumStep deps acc spec :=
  mem_foldl_addUnique_of_mem _ (mem_addUnique_of_mem _ h)

theorem mem_accumStep_self (deps : String → List String) (acc : List String)
    (spec : String) : spec ∈ accumStep deps acc spec :=
  mem_foldl_addUnique_of_mem _ (mem_addUnique_self _ _)

theorem foldl_accumStep_nodup (deps : String → List String)
    {acc : List String} (l : List String) (h : acc.Nodup) :
    (l.foldl (accumStep deps) acc).Nodup := by
  induction l generalizing acc with
  | nil => exact h
  | cons a t ih => exact ih (accumStep_nodup deps a h)

theorem mem_foldl_accumStep_of_mem (deps : String → List String)
    {acc : List String} {y : String} (l : List String) (h : y ∈ acc) :
    y ∈ l.foldl (accumStep deps) acc := by
  induction l generalizing acc with
  | nil => exact h
  | cons a t ih => exact ih (mem_accumStep_of_mem deps a h)

theorem mem_foldl_accumStep_self (deps : String → List String)
    (l : List String) : ∀ acc, ∀ s ∈ l, s ∈ l.foldl (accumStep deps) acc := by
  induction l with
  | nil => intro acc s hs; cases hs
  | cons a t ih =>
    intro acc s hs
    rcases List.mem_cons.mp hs with h | h
    · subst h
      exact mem_foldl_accumStep_of_mem deps t (mem_accumStep_self deps acc s)
    · exact ih _ s h

/-- C1 counterexample: with every dependency lookup empty, submitting
`["a==1.0", "a"]` to `install_multiple` accumulates BOTH raw specifiers —
the set is keyed by raw string, so two installer invocations are dispatched
for base name `a`, refuting "exactly one invocation per base name". -/
theorem C1_counterexample :
    accumulateSet (fun _ => []) ["a==1.0", "a"] = ["a==1.0", "a"] ∧
    getBaseName "a==1.0" = "a" ∧ getBaseName "a" = "a" ∧
    (accumulateSet (fun _ => []) ["a==1.0", "a"]).countP
      (fun s => getBaseName s == "a") ≠ 1 := by
  refine ⟨rfl, rfl, rfl, ?_⟩
  decide

/-- C1 (amended): the accumulated install set of `install_multiple` is
deduplicated by raw specifier string, not by base name: it never contains a
duplicate string, and every requested specifier is dispatched.  Specifiers
that differ as strings are dispatched separately even when they share a base
name (package_handler.py:195-206). -/
theorem C1_install_set_dedup_by_raw_spec (deps : String → List String)
    (specs : List String) :
    (accumulateSet deps specs).Nodup ∧
    ∀ s ∈ specs, s ∈ accumulateSet deps specs := by
  constructor
  · exact foldl_accumStep_nodup deps specs List.nodup_nil
  · exact fun s hs => mem_foldl_accumStep_self deps specs [] s hs

/-- Witness for C1's amended theorem at a concrete input. -/
theorem C1_install_set_dedup_witness :
    (accumulateSet (fun _ => ["b"]) ["a==1.0", "a"]).Nodup ∧
    ∀ s ∈ (["a==1.0", "a"] : List String),
      s ∈ accumulateSet (fun _ => ["b"]) ["a==1.0", "a"] :=
  C1_install_set_dedup_by_raw_spec (fun _ => ["b"]) ["a==1.0", "a"]

/-! ### Installer adapter: exit classification and the externally-managed retry

Models the nonzero-exit handling shared by `install_package`
(package_handler.py:168-174), `update_package` (283-289) and
`uninstall_package` (238-243): on nonzero exit, if stderr contains the
externally-managed marker, `--break-system-packages` is appended to the same
command and it is re-run once via `subprocess.check_call`; any other nonzero
exit raises an error carrying the stderr text.  `exec` abstracts running a
subprocess, returning its exit code and captured stderr. -/

/-- The marker substring tested against stderr. -/
def managedMarker : String := "externally-managed-environment"

/-- The flag appended before the single retry. -/
def overrideFlag : String := "--break-system-packages"

/-- How a nonzero installer exit surfaces. -/
inductive InstallerFailure where
  /-- nonzero exit without the marker: raised as
  `"Installation failed: {stderr}"` / `"Update failed: {stderr}"` /
  `Exception(stderr)`, carrying the stderr text. -/
  | nonzeroExit (stderr : String)
  /-- the `--break-system-packages` retry also exited nonzero
  (`subprocess.check_call` raised). -/
  | retryNonzero
  deriving DecidableEq, Repr

/-- Run the installer command once, applying the retry policy; returns the
list of subprocess invocations actually made and the outcome. -/
def runWithRetry (exec : List String → Int × String) (cmd : List String) :
    List (List String) × Except InstallerFailure Unit :=
  let r := exec cmd
  if r.1 = 0 then ([cmd], Except.ok ())
  else if strContains r.2 managedMarker then
    let cmd2 := cmd ++ [overrideFlag]
    if (exec cmd2).1 = 0 then ([cmd, cmd2], Except.ok ())
    else ([cmd, cmd2], Except.error InstallerFailure.retryNonzero)
  else ([cmd], Except.error (InstallerFailure.nonzeroExit r.2))

/-- C5: on a nonzero installer exit whose stderr contains the
externally-managed marker, exactly one retry is made, with the override flag
appended to the same command, and the item succeeds iff that retry exits
zero; any other nonzero exit makes no retry and surfaces an error carrying
the stderr text (package_handler.py:168-174, 283-289). -/
theorem C5_managed_env_retry_policy (exec : List String → Int × String)
    (cmd : List String) (h : (exec cmd).1 ≠ 0) :
    (strContains (exec cmd).2 managedMarker = true →
      (runWithRetry exec cmd).1 = [cmd, cmd ++ [overrideFlag]] ∧
      ((runWithRetry exec cmd).2 = Except.ok () ↔
        (exec (cmd ++ [overrideFlag])).1 = 0)) ∧
    (strContains (exec cmd).2 managedMarker = false →
      (runWithRetry exec cmd).1 = [cmd] ∧
      (runWithRetry exec cmd).2 =
        Except.error (InstallerFailure.nonzeroExit (exec cmd).2)) := by
  constructor
  · intro hm
    by_cases hr : (exec (cmd ++ [overrideFlag])).1 = 0
    · simp [runWithRetry, if_neg h, hm, hr]
    · simp [runWithRetry, if_neg h, hm, hr]
  · intro hm
    simp [runWithRetry, if_neg h, hm]

/-- Witness for C5 at a concrete stub installer: the first run exits 1 with
the marker on stderr, the retry (with the flag appended) exits 0. -/
theorem C5_managed_env_retry_witness :
    (strContains
        ((fun c : List String => if overrideFlag ∈ c then ((0 : Int), "")
          else (1, "error: externally-managed-environment")) ["pip", "install", "requests"]).2
        managedMarker = true →
      (runWithRetry
          (fun c : List String => if overrideFlag ∈ c then ((0 : Int), "")
            else (1, "error: externally-managed-environment")) ["pip", "install", "requests"]).1 =
        [["pip", "install", "requests"], ["pip", "install", "requests"] ++ [overrideFlag]] ∧
      ((runWithRetry
          (fun c : List String => if overrideFlag ∈ c then ((0 : Int), "")
            else (1, "error: externally-managed-environment")) ["pip", "install", "requests"]).2 =
          Except.ok () ↔
        ((fun c : List String => if overrideFlag ∈ c then ((0 : Int), "")
          else (1, "error: externally-managed-environment"))
            (["pip", "install", "requests"] ++ [overrideFlag])).1 = 0)) ∧
    (strContains
        ((fun c : List String => if overrideFlag ∈ c then ((0 : Int), "")
          else (1, "error: externally-managed-environment")) ["pip", "install", "requests"]).2
        managedMarker = false →
      (runWithRetry
          (fun c : List String => if overrideFlag ∈ c then ((0 : Int), "")
            else (1, "error: externally-managed-environment")) ["pip", "install", "requests"]).1 =
        [["pip", "install", "requests"]] ∧
      (runWithRetry
          (fun c : List String => if overrideFlag ∈ c then ((0 : Int), "")
            else (1, "error: externally-managed-environment")) ["pip", "install", "requests"]).2 =
        Except.error (InstallerFailure.nonzeroExit
          ((fun c : List String => if overrideFlag ∈ c then ((0 : Int), "")
            else (1, "error: externally-managed-environment")) ["pip", "install", "requests"]).2)) :=
  C5_managed_env_retry_policy
    (fun c => if overrideFlag ∈ c then ((0 : Int), "")
      else (1, "error: externally-managed-environment"))
    ["pip", "install", "requests"] (by decide)

/-! ### `install_package` and the aggregate result of `install_multiple`

`install_package` (package_handler.py:141-193) wraps everything in
`try/except` and returns `True`/`False`; any failure reason is only logged
(line 192), never returned.  On success it loads the manifest, stores
`{version, install_date, security_hash}` under the base name, and saves.
`install_multiple` (205-229) collects each item's boolean into
`successful`/`failed` (reasons would only be appended if the worker itself
raised, which `install_package` never does), and raises
`Exception("Some packages failed to install:\n" + "\n".join(failed))` when
`failed` is nonempty.  `items` is the accumulated install set in completion
order; `env` gives each item's external-world outcome. -/

/-- The external-world outcome of one `install_package` run: the adapter
result after the retry policy, the `pip show` version resolution, the
best-effort PyPI digest, and `datetime.now()`. -/
structure InstallEnv where
  adapter : Except InstallerFailure Unit
  resolved : Option String
  digest : Option String
  now : String

/-- Whether `install_package` returns `True` for this environment. -/
def installOk (e : InstallEnv) : Bool :=
  match e.adapter, e.resolved with
  | Except.ok _, some _ => true
  | _, _ => false

/-- `install_package`: returned boolean and resulting manifest state. -/
def installPackage (e : InstallEnv) (spec : String) (m : Manifest) :
    Bool × Manifest :=
  match e.adapter with
  | Except.error _ => (false, m)
  | Except.ok _ =>
    match e.resolved with
    | none => (false, m)
    | some v =>
      (true, mInsert m (getBaseName spec) ⟨v, some e.now, none, e.digest⟩)

/-- Manifest state after every dispatched item of `install_multiple` has
completed (each success performed its read-modify-write). -/
def installManyManifest (env : String → InstallEnv) (items : List String)
    (m0 : Manifest) : Manifest :=
  items.foldl (fun m spec => (installPackage (env spec) spec m).2) m0

/-- The `failed` list collected by `install_multiple`, in completion order. -/
def installManyFailed (env : String → InstallEnv) (items : List String) :
    List String :=
  items.filter (fun s => !(installOk (env s)))

/-- The aggregate result of `install_multiple` (lines 228-229). -/
def installManyResult (env : String → InstallEnv) (items : List String) :
    Except String Unit :=
  if installManyFailed env items = [] then Except.ok ()
  else Except.error ("Some packages failed to install:\n" ++
    String.intercalate "\n" (installManyFailed env items))

theorem installPackage_fst (e : InstallEnv) (spec : String) (m : Manifest) :
    (installPackage e spec m).1 = installOk e := by
  obtain ⟨ad, res, dig, now⟩ := e
  cases ad <;> cases res <;> rfl

theorem mHas_installPackage_of_mHas (e : InstallEnv) (spec : String)
    {m : Manifest} {n : String} (h : mHas m n = true) :
    mHas (installPackage e spec m).2 n = true := by
  obtain ⟨ad, res, dig, now⟩ := e
  cases ad <;> cases res <;>
    first
      | exact h
      | exact mHas_mInsert_of_mHas _ _ _ _ h

theorem mHas_installPackage_self {e : InstallEnv} (spec : String)
    (m : Manifest) (h : installOk e = true) :
    mHas (installPackage e spec m).2 (getBaseName spec) = true := by
  obtain ⟨ad, res, dig, now⟩ := e
  cases ad <;> cases res <;> simp [installOk] at h
  exact mHas_mInsert_self _ _ _

theorem mHas_installManyManifest_of_mHas (env : String → InstallEnv)
    (items : List String) {m : Manifest} {n : String} (h : mHas m n = true) :
    mHas (installManyManifest env items m) n = true := by
  induction items generalizing m with
  | nil => exact h
  | cons a t ih => exact ih (mHas_installPackage_of_mHas (env a) a h)

theorem mHas_installManyManifest_of_ok (env : String → InstallEnv)
    (items : List String) :
    ∀ (m : Manifest) (s : String), s ∈ items → installOk (env s) = true →
      mHas (installManyManifest env items m) (getBaseName s) = true := by
  induction items with
  | nil => intro m s hs; cases hs
  | cons a t ih =>
    intro m s hs hok
    rcases List.mem_cons.mp hs with h | h
    · subst h
      exact mHas_installManyManifest_of_mHas env t
        (mHas_installPackage_self s m hok)
    · exact ih _ s h hok

/-- C3 counterexample: item `"b"` fails with underlying stderr `"boom"`
(`install_package` catches the error, logs it and returns `False`, so
`install_multiple` appends only the bare specifier).  The aggregate
exception message does not contain the individual failure reason. -/
theorem C3_counterexample :
    installManyResult
        (fun _ => ⟨Except.error (InstallerFailure.nonzeroExit "boom"),
          none, none, "t0"⟩) ["b"] =
      Except.error "Some packages failed to install:\nb" ∧
    strContains "Some packages failed to install:\nb" "boom" = false := by
  constructor
  · rfl
  · decide

/-- C3 (amended): whenever at least one item failed, `install_multiple`
raises an aggregate exception enumerating every failed specifier (the
individual reasons are only logged by `install_package`, not included), and
the manifest records written by the succeeded items remain persisted
(package_handler.py:210-229). -/
theorem C3_partial_failure_aggregate (env : String → InstallEnv)
    (items : List String) (m0 : Manifest)
    (h : installManyFailed env items ≠ []) :
    installManyResult env items =
      Except.error ("Some packages failed to install:\n" ++
        String.intercalate "\n" (installManyFailed env items)) ∧
    (∀ s ∈ items, installOk (env s) = false →
      s ∈ installManyFailed env items) ∧
    (∀ s ∈ items, installOk (env s) = true →
      mHas (installManyManifest env items m0) (getBaseName s) = true) := by
  refine ⟨?_, ?_, ?_⟩
  · unfold installManyResult
    rw [if_neg h]
  · intro s hs hf
    unfold installManyFailed
    rw [List.mem_filter]
    exact ⟨hs, by simp [hf]⟩
  · exact fun s hs hok => mHas_installManyManifest_of_ok env items m0 s hs hok

/-- Witness for C3's amended theorem: `"a"` succeeds, `"b"` fails; the call
raises listing `"b"`, while `"a"`'s record is persisted. -/
theorem C3_partial_failure_witness :
    installManyResult
        (fun s => if s = "b"
          then ⟨Except.error (InstallerFailure.nonzeroExit "boom"), none, none, "t0"⟩
          else ⟨Except.ok (), some "1.0", none, "t0"⟩) ["a", "b"] =
      Except.error ("Some packages failed to install:\n" ++
        String.intercalate "\n" (installManyFailed
          (fun s => if s = "b"
            then ⟨Except.error (InstallerFailure.nonzeroExit "boom"), none, none, "t0"⟩
            else ⟨Except.ok (), some "1.0", none, "t0"⟩) ["a", "b"])) ∧
    (∀ s ∈ (["a", "b"] : List String),
      installOk ((fun s => if s = "b"
          then ⟨Except.error (InstallerFailure.nonzeroExit "boom"), none, none, "t0"⟩
          else (⟨Except.ok (), some "1.0", none, "t0"⟩ : InstallEnv)) s) = false →
        s ∈ installManyFailed
          (fun s => if s = "b"
            then ⟨Except.error (InstallerFailure.nonzeroExit "boom"), none, none, "t0"⟩
            else ⟨Except.ok (), some "1.0", none, "t0"⟩) ["a", "b"]) ∧
    (∀ s ∈ (["a", "b"] : List String),
      installOk ((fun s => if s = "b"
          then ⟨Except.error (InstallerFailure.nonzeroExit "boom"), none, none, "t0"⟩
          else (⟨Except.ok (), some "1.0", none, "t0"⟩ : InstallEnv)) s) = true →
        mHas (installManyManifest
          (fun s => if s = "b"
            then ⟨Except.error (InstallerFailure.nonzeroExit "boom"), none, none, "t0"⟩
            else ⟨Except.ok (), some "1.0", none, "t0"⟩) ["a", "b"] [])
          (getBaseName s) = true) :=
  C3_partial_failure_aggregate
    (fun s => if s = "b"
      then ⟨Except.error (InstallerFailure.nonzeroExit "boom"), none, none, "t0"⟩
      else ⟨Except.ok (), some "1.0", none, "t0"⟩)
    ["a", "b"] [] (by decide)

/-! ### `uninstall_package` -/

/-- The removal command built at package_handler.py:234. -/
def uninstallCmd (name : String) : List String :=
  ["pip", "uninstall", "-y", getBaseName name]

/-- `uninstall_package` (231-253): run the removal command under the retry
policy; on success delete the manifest entry if present (saving only then).
Returns the resulting manifest and whether `_save_packages` was called; a
failure is re-raised as `"Failed to uninstall {base}: ..."`, modelled by the
carried `InstallerFailure`. -/
def uninstallPackage (m : Manifest) (exec : List String → Int × String)
    (name : String) : Except InstallerFailure (Manifest × Bool) :=
  match (runWithRetry exec (uninstallCmd name)).2 with
  | Except.error f => Except.error f
  | Except.ok _ =>
    if mHas m (getBaseName name) then
      Except.ok (mErase m (getBaseName name), true)
    else Except.ok (m, false)

/-- C9: when the removal subprocess exits zero, `uninstall_package` succeeds
even if the manifest has no entry for the base name, and in that case the
manifest is left unchanged and never saved; when an entry exists it is
deleted (package_handler.py:231-250). -/
theorem C9_uninstall_manifest_miss (m : Manifest)
    (exec : List String → Int × String) (name : String)
    (h : (exec (uninstallCmd name)).1 = 0) :
    ∃ m' saved, uninstallPackage m exec name = Except.ok (m', saved) ∧
      (mLookup m (getBaseName name) = none → m' = m ∧ saved = false) ∧
      (mLookup m (getBaseName name) ≠ none →
        mLookup m' (getBaseName name) = none ∧ saved = true) := by
  have hrun : (runWithRetry exec (uninstallCmd name)).2 = Except.ok () := by
    simp [runWithRetry, h]
  by_cases hm : mHas m (getBaseName name)
  · refine ⟨mErase m (getBaseName name), true, ?_, ?_, ?_⟩
    · simp [uninstallPackage, hrun, hm]
    · intro hnone
      simp [mHas, hnone] at hm
    · intro _
      exact ⟨mLookup_mErase_self m _, rfl⟩
  · refine ⟨m, false, ?_, fun _ => ⟨rfl, rfl⟩, ?_⟩
    · simp [uninstallPackage, hrun, hm]
    · intro hsome
      rcases Option.isSome_iff_exists.mp
        (Option.ne_none_iff_isSome.mp hsome) with ⟨r, hr⟩
      exact absurd (by simp [mHas, hr]) hm

/-- Witness for C9: removal succeeds, the manifest holds only `"b"`, and
uninstalling `"nonexistent"` leaves it untouched without saving. -/
theorem C9_uninstall_manifest_miss_witness :
    ∃ m' saved,
      uninstallPackage [("b", ⟨"1.0", some "t0", none, none⟩)]
        (fun _ => ((0 : Int), "")) "nonexistent" = Except.ok (m', saved) ∧
      (mLookup [("b", ⟨"1.0", some "t0", none, none⟩)]
          (getBaseName "nonexistent") = none →
        m' = [("b", ⟨"1.0", some "t0", none, none⟩)] ∧ saved = false) ∧
      (mLookup [("b", ⟨"1.0", some "t0", none, none⟩)]
          (getBaseName "nonexistent") ≠ none →
        mLookup m' (getBaseName "nonexistent") = none ∧ saved = true) :=
  C9_uninstall_manifest_miss [("b", ⟨"1.0", some "t0", none, none⟩)]
    (fun _ => ((0 : Int), "")) "nonexistent" rfl

/-! ### `update_package` -/

/-- The upgrade command built at package_handler.py:259 (`self.cache_dir`
is the working directory's `.pkgx_cache`). -/
def updateCmd (name : String) : List String :=
  ["pip", "install", "--upgrade", "--user", "--cache-dir", ".pkgx_cache",
    getBaseName name]

/-- How an `update_package` call fails (re-raised at line 310 as
`"Failed to update {base}: ..."`). -/
inductive UpdateError where
  /-- the upgrade subprocess failed (`"Update failed: {stderr}"`, or the
  retry's `CalledProcessError`). -/
  | adapter (f : InstallerFailure)
  /-- `"Could not determine version for {base}"` after a reported-successful
  upgrade (line 293). -/
  | versionUnresolved
  deriving DecidableEq, Repr

/-- Result of one `update_package` call. -/
structure UpdateOutcome where
  err : Option UpdateError
  manifest : Manifest
  /-- whether line 296 reports "already at the latest version". -/
  alreadyCurrent : Bool
  deriving DecidableEq, Repr

/-- `update_package` (255-310): record the pre-update version, run the
upgrade under the retry policy, re-resolve the installed version
(`newV`), then — only on success — read-modify-write the manifest record to
`{version, update_date, security_hash}`. -/
def updatePackage (m : Manifest) (exec : List String → Int × String)
    (currentV newV : Option String) (now : String) (hash : Option String)
    (name : String) : UpdateOutcome :=
  match (runWithRetry exec (updateCmd name)).2 with
  | Except.error f => ⟨some (UpdateError.adapter f), m, false⟩
  | Except.ok _ =>
    match newV with
    | none => ⟨some UpdateError.versionUnresolved, m, false⟩
    | some v =>
      ⟨none,
        mInsert m (getBaseName name) ⟨v, none, some now, hash⟩,
        decide (currentV = some v)⟩

/-- C2: evaluating `update_package` at the failing input.  Starting from a
record whose `install_date` is `"2024-01-01T00:00:00"`, a successful no-op
update (resolved version equal to the pre-update version) is reported as
already current with `version` unchanged and `update_date` set — but the
rewritten record has NO `install_date`: line 301-305 replaces the whole
record, contradicting the claim (and `_normalize_package_data`, line 322,
which reads `info["install_date"]` unconditionally). -/
theorem C2_update_drops_install_date :
    (updatePackage [("a", ⟨"1.0", some "2024-01-01T00:00:00", none, none⟩)]
      (fun _ => ((0 : Int), "")) (some "1.0") (some "1.0")
      "2024-02-02T00:00:00" none "a").err = none ∧
    (updatePackage [("a", ⟨"1.0", some "2024-01-01T00:00:00", none, none⟩)]
      (fun _ => ((0 : Int), "")) (some "1.0") (some "1.0")
      "2024-02-02T00:00:00" none "a").alreadyCurrent = true ∧
    mLookup (updatePackage [("a", ⟨"1.0", some "2024-01-01T00:00:00", none, none⟩)]
      (fun _ => ((0 : Int), "")) (some "1.0") (some "1.0")
      "2024-02-02T00:00:00" none "a").manifest "a" =
      some ⟨"1.0", none, some "2024-02-02T00:00:00", none⟩ ∧
    (mLookup (updatePackage [("a", ⟨"1.0", some "2024-01-01T00:00:00", none, none⟩)]
      (fun _ => ((0 : Int), "")) (some "1.0") (some "1.0")
      "2024-02-02T00:00:00" none "a").manifest "a").map
        PackageRecord.install_date ≠ some (some "2024-01-01T00:00:00") := by
  refine ⟨rfl, ?_, rfl, ?_⟩
  · decide
  · decide

/-- C10: error atomicity of `update_package` — when the upgrade subprocess
exits nonzero without the externally-managed marker the call raises; when no
installed version can be resolved after a reported-successful upgrade the
call raises; and whenever the call raises, the manifest is unchanged: the
read-modify-write happens only after both steps succeed
(package_handler.py:255-310). -/
theorem C10_update_error_atomicity (m : Manifest)
    (exec : List String → Int × String) (currentV newV : Option String)
    (now : String) (hash : Option String) (name : String) :
    (((exec (updateCmd name)).1 ≠ 0 ∧
        strContains (exec (updateCmd name)).2 managedMarker = false) →
      (updatePackage m exec currentV newV now hash name).err.isSome = true) ∧
    (newV = none →
      (updatePackage m exec currentV newV now hash name).err.isSome = true) ∧
    ((updatePackage m exec currentV newV now hash name).err.isSome = true →
      (updatePackage m exec currentV newV now hash name).manifest = m) := by
  refine ⟨?_, ?_, ?_⟩
  · rintro ⟨h1, h2⟩
    simp [updatePackage, runWithRetry, if_neg h1, h2]
  · intro hv
    subst hv
    unfold updatePackage
    cases (runWithRetry exec (updateCmd name)).2 <;> rfl
  · intro herr
    unfold updatePackage at herr ⊢
    cases hres : (runWithRetry exec (updateCmd name)).2 with
    | error f => rfl
    | ok u =>
      rw [hres] at herr
      cases hv : newV with
      | none => rfl
      | some v =>
        rw [hv] at herr
        simp at herr

/-- Witness for C10: a stub upgrade failing with non-marker stderr raises
and leaves the one-record manifest unchanged. -/
theorem C10_update_error_atomicity_witness :
    (updatePackage [("a", ⟨"1.0", some "t0", none, none⟩)]
      (fun _ => ((1 : Int), "boom")) (some "1.0") (some "1.0") "t1" none
      "a").err.isSome = true ∧
    (updatePackage [("a", ⟨"1.0", some "t0", none, none⟩)]
      (fun _ => ((1 : Int), "boom")) (some "1.0") (some "1.0") "t1" none
      "a").manifest = [("a", ⟨"1.0", some "t0", none, none⟩)] := by
  have h := C10_update_error_atomicity
    [("a", ⟨"1.0", some "t0", none, none⟩)] (fun _ => ((1 : Int), "boom"))
    (some "1.0") (some "1.0") "t1" none "a"
  have he := h.1 ⟨by decide, by decide⟩
  exact ⟨he, h.2.2 he⟩

/-! ### Concurrent installs: the manifest read-modify-write interleaving

`install_multiple` (line 205-206) runs up to four `install_package` calls
concurrently.  Each successful call performs, with no lock,
`data = self._load_packages()` (line 180) followed by
`self._save_packages(data)` of its privately modified snapshot (lines
181-187).  The machine below interleaves those two manifest actions of each
task under an arbitrary schedule. -/

/-- One concurrent `install_package` task on its success path: the record it
will write, its private manifest snapshot once loaded, and whether it has
saved. -/
structure InstallTask where
  name : String
  record : PackageRecord
  snap : Option Manifest
  saved : Bool
  deriving DecidableEq, Repr

/-- Scheduler step: task `i` performs its next manifest action — load a
snapshot of the shared file, or write back its snapshot with its own record
inserted. -/
def raceStep (st : Manifest × List InstallTask) (i : Nat) :
    Manifest × List InstallTask :=
  match st.2.get? i with
  | none => st
  | some t =>
    match t.snap with
    | none => (st.1, st.2.set i ⟨t.name, t.record, some st.1, t.saved⟩)
    | some snap =>
      if t.saved then st
      else (mInsert snap t.name t.record,
        st.2.set i ⟨t.name, t.record, some snap, true⟩)

/-- Run a schedule (a sequence of task indices) from an initial shared
manifest. -/
def raceRun (m0 : Manifest) (ts : List InstallTask) (sched : List Nat) :
    Manifest × List InstallTask :=
  sched.foldl raceStep (m0, ts)

/-- C4 failing schedule: two successful installs of distinct packages `"a"`
and `"b"` from an empty manifest, interleaved as load-a, load-b, save-a,
save-b.  Both tasks completed their whole-document read-modify-write, yet
the final manifest holds only `"b"`: `"a"`'s record was lost, so manifest
cardinality is 1, not N = 2. -/
theorem C4_concurrent_install_lost_update :
    ((raceRun [] [⟨"a", ⟨"1.0", some "t0", none, none⟩, none, false⟩,
        ⟨"b", ⟨"2.0", some "t0", none, none⟩, none, false⟩]
        [0, 1, 0, 1]).2.all (fun t => t.saved)) = true ∧
    mLookup (raceRun [] [⟨"a", ⟨"1.0", some "t0", none, none⟩, none, false⟩,
        ⟨"b", ⟨"2.0", some "t0", none, none⟩, none, false⟩]
        [0, 1, 0, 1]).1 "a" = none ∧
    (raceRun [] [⟨"a", ⟨"1.0", some "t0", none, none⟩, none, false⟩,
        ⟨"b", ⟨"2.0", some "t0", none, none⟩, none, false⟩]
        [0, 1, 0, 1]).1.length = 1 := by
  refine ⟨?_, ?_, ?_⟩ <;> decide

/-! ### `_get_dependencies`

`_get_dependencies` (package_handler.py:54-74).  `fetch` abstracts the index
query: `none` = non-200 response or any exception; `some none` =
`requires_dist` null; `some (some reqs)` = the declared requirement
strings. -/

/-- The loop body of lines 65-69: skip falsy requirements and requirements
containing `"extra =="`; reduce to base name; append when nonempty and not
already collected. -/
def depStep (deps : List String) (req : String) : List String :=
  if req ≠ "" ∧ strContains req "extra ==" = false then
    if getBaseName req ≠ "" ∧ getBaseName req ∉ deps then
      deps ++ [getBaseName req]
    else deps
  else deps

/-- `_get_dependencies`. -/
def getDependencies (fetch : Option (Option (List String))) : List String :=
  match fetch with
  | none => []
  | some none => []
  | some (some reqs) => reqs.foldl depStep []

/-- First-seen-order deduplication, as the claim describes it. -/
def dedupFirst (l : List String) : List String :=
  l.foldl addUnique []

/-- The dependency list as claim C7 words it: drop the `"extra =="`-gated
requirements, reduce each remaining requirement to its base name,
deduplicate preserving first-seen order. -/
def getDependenciesClaimed (fetch : Option (Option (List String))) :
    List String :=
  match fetch with
  | some (some reqs) =>
    dedupFirst ((reqs.filter
      (fun r => !(strContains r "extra =="))).map getBaseName)
  | _ => []

/-- The dependency list the code actually computes, stated in the claim's
style: additionally, empty requirements and requirements whose base name is
empty are skipped. -/
def getDependenciesActual (fetch : Option (Option (List String))) :
    List String :=
  match fetch with
  | some (some reqs) =>
    dedupFirst ((((reqs.filter
      (fun r => r != "" && !(strContains r "extra =="))).map
        getBaseName).filter (fun d => d != "")))
  | _ => []

/-- C7 counterexample: for a successfully fetched document whose
`requires_dist` is `[""]`, the code returns `[]` (the falsy requirement is
skipped at line 66), while the claimed description yields `[""]`. -/
theorem C7_counterexample :
    getDependencies (some (some [""])) = [] ∧
    getDependenciesClaimed (some (some [""])) = [""] ∧
    getDependencies (some (some [""])) ≠
      getDependenciesClaimed (some (some [""])) := by
  refine ⟨?_, ?_, ?_⟩ <;> decide

theorem depStep_foldl_eq (reqs : List String) : ∀ acc : List String,
    reqs.foldl depStep acc =
      ((((reqs.filter (fun r => r != "" && !(strContains r "extra =="))).map
        getBaseName).filter (fun d => d != ""))).foldl addUnique acc := by
  induction reqs with
  | nil => intro acc; rfl
  | cons r t ih =>
    intro acc
    by_cases h1 : r ≠ "" ∧ strContains r "extra ==" = false
    · have hq : (r != "" && !(strContains r "extra ==")) = true := by
        obtain ⟨ha, hb⟩ := h1
        simp [ha, hb]
      by_cases h2 : getBaseName r = ""
      · have hstep : depStep acc r = acc := by
          unfold depStep
          rw [if_pos h1]
          simp [h2]
        simp only [List.foldl_cons, hstep, List.filter_cons, hq,
          List.map_cons, if_pos]
        rw [ih acc]
        simp [List.filter_cons, h2]
      · have hstep : depStep acc r = addUnique acc (getBaseName r) := by
          unfold depStep addUnique
          rw [if_pos h1]
          by_cases hm : getBaseName r ∈ acc
          · rw [if_neg (by simp [hm]), if_pos hm]
          · rw [if_pos ⟨h2, hm⟩, if_neg hm]
        simp only [List.foldl_cons, hstep, List.filter_cons, hq,
          List.map_cons, if_pos]
        have h2' : (getBaseName r != "") = true := by simp [h2]
        rw [ih (addUnique acc (getBaseName r))]
        conv_rhs => rw [if_pos h2', List.foldl_cons]
    · have hq : (r != "" && !(strContains r "extra ==")) = false := by
        by_cases hr : r = ""
        · simp [hr]
        · have hcs : strContains r "extra ==" = true := by
            cases hc : strContains r "extra =="
            · exact absurd ⟨hr, hc⟩ h1
            · rfl
          simp [hcs]
      have hstep : depStep acc r = acc := by
        unfold depStep
        rw [if_neg h1]
      simp only [List.foldl_cons, hstep, List.filter_cons, hq,
        List.map_cons]
      rw [ih acc]
      simp [List.filter_cons, hq]

/-- C7 (amended): for every fetched document, `_get_dependencies` returns
the base names of the declared requirements with `"extra =="`-gated entries
excluded, empty requirements and empty base names skipped, and duplicates
removed preserving first-seen order; it returns `[]` when `requires_dist`
is null or on any failure (package_handler.py:54-74). -/
theorem C7_dependencies_dedup_first_seen
    (fetch : Option (Option (List String))) :
    getDependencies fetch = getDependenciesActual fetch := by
  match fetch with
  | none => rfl
  | some none => rfl
  | some (some reqs) =>
    unfold getDependencies getDependenciesActual dedupFirst
    exact depStep_foldl_eq reqs []

/-! ### `_get_latest_version`

`_get_latest_version` (package_handler.py:122-139).  The external
`packaging.version` library is abstracted: `key` is `version.parse` into any
linearly ordered type, `isPre` is `version.parse(r).is_prerelease`.  `fetch`
is `none` on non-200 or exception, otherwise the list of release keys in
document order. -/

/-- Python `max(x :: xs, key=k)`: the first element with maximal key (later
elements replace the running best only when strictly greater). -/
def foldMax {V : Type} [LinearOrder V] (k : String → V) (b : String)
    (l : List String) : String :=
  l.foldl (fun best a => if k best < k a then a else best) b

/-- Python `max(releases, key=...)` as an option on a possibly empty list. -/
def pyMaxKey {V : Type} [LinearOrder V] (k : String → V) :
    List String → Option String
  | [] => none
  | x :: xs => some (foldMax k x xs)

/-- `_get_latest_version`: prefer the maximum stable release under `key`
ordering, fall back to the maximum over all releases, `None` on failure or
when there are no releases. -/
def getLatestVersion {V : Type} [LinearOrder V] (k : String → V)
    (isPre : String → Bool) (fetch : Option (List String)) : Option String :=
  match fetch with
  | none => none
  | some releases =>
    if releases.isEmpty then none
    else
      let stable := releases.filter (fun r => !(isPre r))
      if !stable.isEmpty then pyMaxKey k stable else pyMaxKey k releases

theorem foldMax_cons {V : Type} [LinearOrder V] (k : String → V)
    (b a : String) (t : List String) :
    foldMax k b (a :: t) = foldMax k (if k b < k a then a else b) t := rfl

theorem foldMax_mem {V : Type} [LinearOrder V] (k : String → V)
    (b : String) (l : List String) : foldMax k b l ∈ b :: l := by
  induction l generalizing b with
  | nil => simp [foldMax]
  | cons a t ih =>
    rw [foldMax_cons]
    by_cases hlt : k b < k a
    · rw [if_pos hlt]
      rcases List.mem_cons.mp (ih a) with h | h
      · rw [h]
        exact List.mem_cons_of_mem _ (List.mem_cons_self _ _)
      · exact List.mem_cons_of_mem _ (List.mem_cons_of_mem _ h)
    · rw [if_neg hlt]
      rcases List.mem_cons.mp (ih b) with h | h
      · rw [h]
        exact List.mem_cons_self _ _
      · exact List.mem_cons_of_mem _ (List.mem_cons_of_mem _ h)

theorem foldMax_ge {V : Type} [LinearOrder V] (k : String → V)
    (b : String) (l : List String) :
    ∀ u ∈ b :: l, k u ≤ k (foldMax k b l) := by
  induction l generalizing b with
  | nil =>
    intro u hu
    rcases List.mem_cons.mp hu with rfl | h
    · exact le_refl _
    · cases h
  | cons a t ih =>
    intro u hu
    rw [foldMax_cons]
    have hbc : k b ≤ k (if k b < k a then a else b) := by
      by_cases hlt : k b < k a
      · rw [if_pos hlt]; exact le_of_lt hlt
      · rw [if_neg hlt]
    have hac : k a ≤ k (if k b < k a then a else b) := by
      by_cases hlt : k b < k a
      · rw [if_pos hlt]
      · rw [if_neg hlt]; exact le_of_not_lt hlt
    have hc := ih (if k b < k a then a else b) _ (List.mem_cons_self _ _)
    rcases List.mem_cons.mp hu with rfl | h
    · exact le_trans hbc hc
    · rcases List.mem_cons.mp h with rfl | h'
      · exact le_trans hac hc
      · exact ih _ u (List.mem_cons_of_mem _ h')

theorem pyMaxKey_spec {V : Type} [LinearOrder V] (k : String → V)
    {l : List String} (h : l ≠ []) :
    ∃ v, pyMaxKey k l = some v ∧ v ∈ l ∧ ∀ u ∈ l, k u ≤ k v := by
  cases l with
  | nil => exact absurd rfl h
  | cons x xs =>
    exact ⟨foldMax k x xs, rfl, foldMax_mem k x xs, foldMax_ge k x xs⟩

/-- C8: for a successfully fetched non-empty release list,
`_get_latest_version` returns a release that is maximal under the version
ordering among stable (non-prerelease) releases when any stable release
exists, otherwise maximal among all releases; it returns `None` on fetch
failure, non-200 response, or an empty release list
(package_handler.py:122-139). -/
theorem C8_latest_version_prefers_stable {V : Type} [LinearOrder V]
    (k : String → V) (isPre : String → Bool) (rels : List String)
    (h : rels ≠ []) :
    getLatestVersion k isPre none = none ∧
    getLatestVersion k isPre (some []) = none ∧
    ∃ v, getLatestVersion k isPre (some rels) = some v ∧ v ∈ rels ∧
      (rels.filter (fun r => !(isPre r)) ≠ [] →
        isPre v = false ∧ ∀ u ∈ rels, isPre u = false → k u ≤ k v) ∧
      (rels.filter (fun r => !(isPre r)) = [] → ∀ u ∈ rels, k u ≤ k v) := by
  have hne : ¬(rels.isEmpty = true) := by simpa using h
  have hsome : getLatestVersion k isPre (some rels) =
      (if !(rels.filter (fun r => !(isPre r))).isEmpty
        then pyMaxKey k (rels.filter (fun r => !(isPre r)))
        else pyMaxKey k rels) := by
    show (if rels.isEmpty then none
      else if !(rels.filter (fun r => !(isPre r))).isEmpty
        then pyMaxKey k (rels.filter (fun r => !(isPre r)))
        else pyMaxKey k rels) = _
    rw [if_neg hne]
  refine ⟨rfl, rfl, ?_⟩
  by_cases hs : rels.filter (fun r => !(isPre r)) = []
  · rcases pyMaxKey_spec k h with ⟨v, hv, hmem, hge⟩
    refine ⟨v, ?_, hmem, fun hc => absurd hs hc, fun _ => hge⟩
    rw [hsome, if_neg (by simp [hs]), hv]
  · rcases pyMaxKey_spec k hs with ⟨v, hv, hmem, hge⟩
    refine ⟨v, ?_, ?_, ?_, fun hc => absurd hc hs⟩
    · rw [hsome, if_pos (by simpa [List.isEmpty_iff] using hs), hv]
    · exact List.mem_of_mem_filter hmem
    · intro _
      constructor
      · have := List.of_mem_filter hmem
        simpa using this
      · intro u hu hpre
        exact hge u (List.mem_filter.mpr ⟨hu, by simp [hpre]⟩)

/-- Witness for C8 with version strings keyed by length and a stub
prerelease test: among `["9", "10", "11rc1"]` (where `"11rc1"` is a
prerelease) the stable `"10"` is chosen. -/
theorem C8_latest_version_witness :
    getLatestVersion (V := Nat) (fun s => s.length) (fun s => s == "11rc1")
        none = none ∧
    getLatestVersion (V := Nat) (fun s => s.length) (fun s => s == "11rc1")
        (some []) = none ∧
    ∃ v, getLatestVersion (V := Nat) (fun s => s.length)
        (fun s => s == "11rc1") (some ["9", "10", "11rc1"]) = some v ∧
      v ∈ ["9", "10", "11rc1"] ∧
      ((["9", "10", "11rc1"].filter (fun r => !(r == "11rc1"))) ≠ [] →
        (v == "11rc1") = false ∧
        ∀ u ∈ ["9", "10", "11rc1"], (u == "11rc1") = false →
          u.length ≤ v.length) ∧
      ((["9", "10", "11rc1"].filter (fun r => !(r == "11rc1"))) = [] →
        ∀ u ∈ ["9", "10", "11rc1"], u.length ≤ v.length) :=
  C8_latest_version_prefers_stable (fun s => s.length) (fun s => s == "11rc1")
    ["9", "10", "11rc1"] (by decide)

end PackageEngine
